import Mathlib

/-!
Verification of the Times-Tables-Tester repository.

The repository has two front ends over the same domain:
* `times_tables.py`  — command-line session loop (`generate_problems`,
  `practice_table`, `load_results`, `save_results`);
* `times_tables_gui.py` — Tk front end (`TimesTableApp.start_practice`,
  `check_answer`, `finish_practice`, `save_results`).

The development below is a shallow embedding of that code: machine floats
are modelled as rationals (`ℚ`), Python `dict`s as association lists in
insertion order, the random source as an explicit oracle record, and user
input after `int(...)` parsing as `Option ℤ` (`none` = `ValueError`).
-/

namespace TimesTables

/-! ## Statistics records

`results.json` maps `str(table)` to a dict with keys `attempts`,
`successes`, `failures`, `best_time` (float or `null`).  Embedded as a
typed record plus an association list in insertion order. -/

structure TableStats where
  attempts : ℕ
  successes : ℕ
  failures : ℕ
  best_time : Option ℚ
deriving DecidableEq

/-- The all-zero entry created for a table never seen before:
`{"attempts": 0, "successes": 0, "failures": 0, "best_time": None}`
(`times_tables.py` line 102, `times_tables_gui.py` lines 150–155). -/
def TableStats.zero : TableStats := ⟨0, 0, 0, none⟩

/-- A statistics store: the in-memory form of `results.json`, a Python dict
from `str(table)` keys to per-table stats, kept in insertion order. -/
abbrev Store := List (String × TableStats)

/-- Dict lookup `results.get(key)` / `key in results`. -/
def lookupStats (store : Store) (k : String) : Option TableStats :=
  (store.find? (fun p => p.1 == k)).map Prod.snd

/-- Dict assignment `results[key] = stats`: replaces the entry if the key is
present, appends it otherwise (Python insertion-order semantics). -/
def setStats : Store → String → TableStats → Store
  | [], k, v => [(k, v)]
  | (k0, v0) :: rest, k, v =>
      if k0 = k then (k, v) :: rest else (k0, v0) :: setStats rest k v

/-- Best-time update on a successful session
(`times_tables.py` lines 110–111, `times_tables_gui.py` lines 160–161):
`if best_time is None or elapsed < best_time: best_time = elapsed`. -/
def updateBest (best : Option ℚ) (elapsed : ℚ) : Option ℚ :=
  match best with
  | none => some elapsed
  | some b => if elapsed < b then some elapsed else some b

/-- Per-entry statistics merge, identical in both front ends
(`times_tables.py` lines 104–118, `times_tables_gui.py` lines 157–163):
increment `attempts`; on success increment `successes` and update
`best_time`; otherwise increment `failures`. -/
def mergeStats (st : TableStats) (success : Bool) (elapsed : ℚ) : TableStats :=
  let st1 : TableStats := { st with attempts := st.attempts + 1 }
  if success then
    { st1 with successes := st1.successes + 1,
               best_time := updateBest st1.best_time elapsed }
  else
    { st1 with failures := st1.failures + 1 }

/-- Whole-store merge: look up (or create all-zero) the entry for `k`,
merge the session outcome into it, and write it back
(`times_tables.py` lines 101–118, `times_tables_gui.py` lines 150–165). -/
def merge (store : Store) (k : String) (success : Bool) (elapsed : ℚ) : Store :=
  setStats store k (mergeStats ((lookupStats store k).getD TableStats.zero) success elapsed)

/-! ## Session scoring -/

/-- The pass/fail rule shared by both front ends
(`times_tables.py` line 106: `correct_answers == 20 and elapsed <= 60`;
`times_tables_gui.py` line 121: `self.correct_answers == 20 and elapsed <= 60`). -/
def session_success (correct : ℕ) (elapsed : ℚ) : Bool :=
  correct == 20 && decide (elapsed ≤ 60)

/-- Python `round(x, 2)` modelled on rationals: round `100 * x` to the
nearest integer, ties to even (banker's rounding), divide by 100.
Used by the CLI only: `elapsed = round(time.time() - start_time, 2)`
(`times_tables.py` line 96). -/
def round2 (q : ℚ) : ℚ :=
  let s : ℚ := q * 100
  let n : ℤ := ⌊s⌋
  let m : ℤ :=
    if s - n < 1/2 then n
    else if s - n > 1/2 then n + 1
    else if Even n then n else n + 1
  (m : ℚ) / 100

end TimesTables

namespace TimesTables

/-! ## CLI session loop

`practice_table` (`times_tables.py` lines 86–94) iterates over the problem
list, reads one answer per problem, and scores it inside `try/except`:
a `ValueError` from `int(answer)` is caught, printed, and the loop moves
on.  An answer is embedded post-parse as `Option ℤ`. -/

/-- Credit for one answer (`times_tables.py` lines 88–94): `1` iff
`int(answer)` parsed and equals `a * b`; a parse failure is caught by the
`except ValueError` arm and earns no credit. -/
def score_answer (a b : ℤ) (ans : Option ℤ) : ℕ :=
  match ans with
  | some v => if v = a * b then 1 else 0
  | none => 0

/-- The CLI question loop (`times_tables.py` lines 84–94): one input is
consumed per problem; returns (problems answered, correct count).  The
input list always has one entry per problem in the real program, since
`input()` blocks until a line arrives. -/
def cli_session : List (ℤ × ℤ) → List (Option ℤ) → ℕ × ℕ
  | [], _ => (0, 0)
  | _ :: _, [] => (0, 0)
  | (a, b) :: ps, ans :: rest =>
      let r := cli_session ps rest
      (r.1 + 1, r.2 + score_answer a b ans)

/-- End-to-end CLI outcome for one completed session
(`times_tables.py` lines 82–120): score the answers, round the elapsed
time to 2 decimals, decide success, and merge into the store under key
`str(times_table)`.  Returns the verdict and the store that is saved. -/
def cli_practice (store : Store) (t : ℤ) (ps : List (ℤ × ℤ))
    (answers : List (Option ℤ)) (t0 t1 : ℚ) : Bool × Store :=
  let correct := (cli_session ps answers).2
  let elapsed := round2 (t1 - t0)
  let succ := session_success correct elapsed
  (succ, merge store (toString t) succ elapsed)

end TimesTables

namespace TimesTables

/-! ## GUI session

`times_tables_gui.py` keeps the session in mutable attributes of
`TimesTableApp`; the fields relevant to scoring are embedded here. -/

structure GuiState where
  problems : List (ℤ × ℤ)
  current_index : ℕ
  correct_answers : ℕ
deriving DecidableEq

/-- Python runtime errors that the GUI code could raise in `check_answer`
(`self.problems[self.current_index]` out of range). -/
inductive PyErr where
  | indexError : PyErr
deriving DecidableEq

/-- `TimesTableApp.check_answer` (`times_tables_gui.py` lines 104–117):
if `int(...)` on the entry text raises `ValueError`, a warning is shown and
the method returns with no state change; otherwise the current problem is
scored, `correct_answers` possibly incremented, and `current_index`
advanced.  Indexing past the end would raise `IndexError`. -/
def check_answer (st : GuiState) (ans : Option ℤ) : Except PyErr GuiState :=
  match ans with
  | none => .ok st
  | some v =>
    match st.problems[st.current_index]? with
    | none => .error .indexError
    | some (a, b) =>
        .ok { st with
                correct_answers :=
                  if v = a * b then st.correct_answers + 1 else st.correct_answers,
                current_index := st.current_index + 1 }

/-- A run of submit events against the GUI: each event is one
`check_answer` call (`times_tables_gui.py` lines 92–117).  Once
`current_index` reaches the end of the problem list, `show_question` calls
`finish_practice` and the answer widgets are unmapped, so further events no
longer reach `check_answer`. -/
def gui_run : GuiState → List (Option ℤ) → Except PyErr GuiState
  | st, [] => .ok st
  | st, e :: es =>
      if st.current_index < st.problems.length then
        match check_answer st e with
        | .ok st2 => gui_run st2 es
        | .error err => .error err
      else .ok st

/-- End-to-end GUI outcome (`times_tables_gui.py` lines 74-168) for a
session started with problem list `ps` and fed the given submit events:
`some (verdict, saved store)` when the session reaches `finish_practice`
(all problems answered), `none` when the events leave the session
unfinished — in that case nothing is scored or saved.  The GUI compares
the raw elapsed time `time.time() - self.start_time` (no rounding). -/
def gui_practice (store : Store) (t : ℤ) (ps : List (ℤ × ℤ))
    (events : List (Option ℤ)) (t0 t1 : ℚ) : Option (Bool × Store) :=
  match gui_run ⟨ps, 0, 0⟩ events with
  | .error _ => none
  | .ok st =>
      if st.current_index ≥ ps.length then
        let elapsed := t1 - t0
        let succ := session_success st.correct_answers elapsed
        some (succ, merge store (toString t) succ elapsed)
      else none

end TimesTables

namespace TimesTables

/-! ## Problem generation

Both front ends build the session's 20 problems from 13 fixed ones plus 7
extras, then shuffle.  The random source is embedded as an explicit oracle:
a stream of `random.randint(0, 12)` draws and one `random.shuffle` outcome.
`goodRng` records exactly what the Python standard library guarantees:
`randint(0, 12)` lands in `[0, 12]` and `shuffle` permutes the list. -/

structure Rng where
  randint : ℕ → ℕ
  shuffle : List (ℤ × ℤ) → List (ℤ × ℤ)

/-- The standard-library contracts assumed of the random source:
every `randint(0, 12)` draw is at most 12, and `random.shuffle`
rearranges the list into a permutation of itself. -/
def goodRng (r : Rng) : Prop :=
  (∀ n, r.randint n ≤ 12) ∧ (∀ l, (r.shuffle l).Perm l)

/-- The 13 fixed problems `[(times_table, i) for i in range(13)]`
(`times_tables.py` line 62, `times_tables_gui.py` line 75). -/
def fixedProblems (t : ℤ) : List (ℤ × ℤ) :=
  (List.range 13).map (fun (i : ℕ) => (t, (i : ℤ)))

/-- The CLI extras `[(times_table, random.randint(0, 12)) for _ in range(7)]`
(`times_tables.py` line 63): 7 independent draws, with replacement. -/
def cliExtras (r : Rng) (t : ℤ) : List (ℤ × ℤ) :=
  (List.range 7).map (fun n => (t, (r.randint n : ℤ)))

/-- `generate_problems` (`times_tables.py` lines 47-65): fixed problems,
then the 7 random extras, then `random.shuffle`. -/
def generate_problems (r : Rng) (t : ℤ) : List (ℤ × ℤ) :=
  r.shuffle (fixedProblems t ++ cliExtras r t)

/-- A `random.sample(population, 7)` outcome, as the list of 7 distinct
positions it picked in the population (`times_tables_gui.py` line 76). -/
def SampleOk (sel : List ℕ) : Prop :=
  sel.Nodup ∧ sel.length = 7 ∧ ∀ i ∈ sel, i < 13

/-- The GUI extras `random.sample(self.problems, 7)`
(`times_tables_gui.py` line 76): the elements of the 13 fixed problems at
the sampled positions — drawn without replacement. -/
def guiSample (sel : List ℕ) (t : ℤ) : List (ℤ × ℤ) :=
  sel.map (fun i => (fixedProblems t).getD i (t, 0))

/-- GUI problem construction (`times_tables_gui.py` lines 75-78):
fixed problems plus the 7 sampled extras, then `random.shuffle`. -/
def gui_problems (r : Rng) (sel : List ℕ) (t : ℤ) : List (ℤ × ℤ) :=
  r.shuffle (fixedProblems t ++ guiSample sel t)

end TimesTables

namespace TimesTables

/-! ## Persistence

`load_results` / `save_results` (`times_tables.py` lines 33-44) go through
`json.load` / `json.dump` on `results.json`.  JSON documents are embedded
at the value level; the on-disk file is `none` when absent,
`some none` when present but unparsable (where `json.load` raises), and
`some (some j)` when it parses to the document `j`. -/

inductive Json where
  | null : Json
  | jint : ℤ → Json
  | jnum : ℚ → Json
  | jstr : String → Json
  | jobj : List (String × Json) → Json

/-- The error `json.load` raises on an unparsable file
(`json.JSONDecodeError`). -/
inductive JsonError where
  | decodeError : JsonError
deriving DecidableEq

/-- `load_results` (`times_tables.py` lines 33-38): if `results.json`
exists it is handed to `json.load`, whose parse failure propagates;
otherwise the empty dict `{}` is returned. -/
def load_results (file : Option (Option Json)) : Except JsonError Json :=
  match file with
  | none => .ok (.jobj [])
  | some none => .error .decodeError
  | some (some j) => .ok j

/-- How `json.dump` sees one stats dict: the four keys in insertion order,
`best_time` as a number or `null` (`times_tables.py` line 102). -/
def encodeStats (st : TableStats) : Json :=
  .jobj [("attempts", .jint (st.attempts : ℤ)),
         ("successes", .jint (st.successes : ℤ)),
         ("failures", .jint (st.failures : ℤ)),
         ("best_time", match st.best_time with
                       | none => .null
                       | some q => .jnum q)]

/-- How `json.dump` sees the whole store: a dict from `str(table)` keys to
stats dicts, in insertion order. -/
def encodeStore (store : Store) : Json :=
  .jobj (store.map (fun p => (p.1, encodeStats p.2)))

/-- `save_results` (`times_tables.py` lines 41-44): overwrite the file with
the serialized store; the resulting file state parses back to the same
document. -/
def save_results (store : Store) : Option (Option Json) :=
  some (some (encodeStore store))

/-- Dict key lookup inside a parsed JSON object, as `v["attempts"]` etc.
read the loaded dicts (`times_tables.py` lines 104-118, 130-135). -/
def jfield : List (String × Json) → String → Option Json
  | [], _ => none
  | (k, v) :: rest, key => if k = key then some v else jfield rest key

/-- Reading a loaded counter field back as the non-negative integer the
program stores there. -/
def decodeNat (j : Json) : Option ℕ :=
  match j with
  | .jint n => if 0 ≤ n then some n.toNat else none
  | _ => none

/-- Reading a loaded `best_time` field back: `null` or a number. -/
def decodeBest (j : Json) : Option (Option ℚ) :=
  match j with
  | .null => some none
  | .jnum q => some (some q)
  | _ => none

/-- Reading one loaded stats dict back into the typed record. -/
def decodeStats (j : Json) : Option TableStats :=
  match j with
  | .jobj fields => do
      let a ← jfield fields "attempts" >>= decodeNat
      let s ← jfield fields "successes" >>= decodeNat
      let f ← jfield fields "failures" >>= decodeNat
      let b ← jfield fields "best_time" >>= decodeBest
      some ⟨a, s, f, b⟩
  | _ => none

/-- Reading every entry of a loaded top-level dict back. -/
def decodeEntries : List (String × Json) → Option Store
  | [] => some []
  | (k, v) :: rest => do
      let st ← decodeStats v
      let tail ← decodeEntries rest
      some ((k, st) :: tail)

/-- Reading a loaded document back as a statistics store. -/
def decodeStore (j : Json) : Option Store :=
  match j with
  | .jobj fields => decodeEntries fields
  | _ => none

end TimesTables

namespace TimesTables

/-! ## Shared invariants and concrete session data -/

/-- The bookkeeping invariant of `results.json`: every per-table entry has
`attempts == successes + failures`. -/
def StoreInv (s : Store) : Prop :=
  ∀ p ∈ s, p.2.attempts = p.2.successes + p.2.failures

/-- A concrete 20-problem session for the 2-times table: the 13 fixed
problems followed by 7 extras that all drew multiplier 0. -/
def demoProblems : List (ℤ × ℤ) :=
  (List.range 13).map (fun (i : ℕ) => ((2 : ℤ), (i : ℤ))) ++ List.replicate 7 ((2 : ℤ), (0 : ℤ))

/-- The all-correct answer sheet for `demoProblems`. -/
def demoAnswers : List (Option ℤ) :=
  demoProblems.map (fun p => some (p.1 * p.2))

/-! ## Helper lemmas -/

lemma mergeStats_counts (st : TableStats) (b : Bool) (e : ℚ)
    (h : st.attempts = st.successes + st.failures) :
    (mergeStats st b e).attempts = (mergeStats st b e).successes + (mergeStats st b e).failures := by
  cases b <;> simp [mergeStats] <;> omega

lemma mem_setStats {s : Store} {k : String} {v : TableStats} {q : String × TableStats}
    (hq : q ∈ setStats s k v) : q = (k, v) ∨ q ∈ s := by
  induction s with
  | nil => simpa [setStats] using hq
  | cons hd tl ih =>
      by_cases hk : hd.1 = k
      · obtain ⟨k0, v0⟩ := hd
        simp only [setStats] at hq
        rw [if_pos hk] at hq
        rcases List.mem_cons.mp hq with h | h
        · exact Or.inl h
        · exact Or.inr (List.mem_cons_of_mem _ h)
      · obtain ⟨k0, v0⟩ := hd
        simp only [setStats] at hq
        rw [if_neg hk] at hq
        rcases List.mem_cons.mp hq with h | h
        · exact Or.inr (by simp [h])
        · rcases ih h with h2 | h2
          · exact Or.inl h2
          · exact Or.inr (List.mem_cons_of_mem _ h2)

lemma lookupStats_mem {s : Store} {k : String} {st : TableStats}
    (h : lookupStats s k = some st) : ∃ p ∈ s, p.2 = st := by
  unfold lookupStats at h
  rcases hf : s.find? (fun p => p.1 == k) with _ | p
  · rw [hf] at h; simp at h
  · rw [hf] at h
    exact ⟨p, List.mem_of_find?_eq_some hf, by simpa using h⟩

end TimesTables

namespace TimesTables

/-! ## Claim theorems -/

/-- C1: a completed session is judged a success if and only if the
correct-answer count is exactly 20 and the elapsed seconds are at most 60;
in particular with 20 correct answers, elapsed 60.00 succeeds and elapsed
60.01 fails, and with a correct count other than 20 the session fails
regardless of elapsed time. -/
theorem C1_success_rule :
    ∀ (c : ℕ) (e : ℚ),
      (session_success c e = true ↔ (c = 20 ∧ e ≤ 60)) ∧
      session_success 20 60 = true ∧
      session_success 20 (6001 / 100) = false ∧
      (c ≠ 20 → session_success c e = false) := by
  intro c e
  refine ⟨?_, by norm_num [session_success], by norm_num [session_success], ?_⟩
  · simp [session_success]
  · intro hc
    simp [session_success, hc]

/-- C1 witness: instantiating the rule at a concrete failing session. -/
theorem C1_success_rule_witness : session_success 7 30 = false :=
  (C1_success_rule 7 30).2.2.2 (by decide)

/-- C3: the statistics merge preserves the invariant
`attempts == successes + failures` in every table entry. -/
theorem C3_merge_preserves_invariant :
    ∀ (store : Store) (k : String) (b : Bool) (e : ℚ),
      StoreInv store → StoreInv (merge store k b e) := by
  intro store k b e hinv q hq
  rcases mem_setStats hq with hq1 | hq1
  · subst hq1
    apply mergeStats_counts
    rcases hlk : lookupStats store k with _ | st
    · simp [hlk, TableStats.zero]
    · rcases lookupStats_mem hlk with ⟨p, hp, hp2⟩
      simpa [hlk, hp2] using hinv p hp
  · exact hinv q hq1

/-- C3 witness: merging a successful session into the empty store keeps the
invariant. -/
theorem C3_merge_preserves_invariant_witness :
    StoreInv (merge [] "2" true 30) :=
  C3_merge_preserves_invariant [] "2" true 30 (by simp [StoreInv])

/-- C4: a failed session leaves `best_time` unchanged (absent stays
absent); a successful session sets it to the session's elapsed time exactly
when it was absent or strictly beaten, and leaves it unchanged otherwise;
hence `best_time` never increases across merges. -/
theorem C4_best_time_rule :
    ∀ (st : TableStats) (e : ℚ),
      ((mergeStats st false e).best_time = st.best_time) ∧
      (st.best_time = none → (mergeStats st true e).best_time = some e) ∧
      (∀ b : ℚ, st.best_time = some b → e < b →
        (mergeStats st true e).best_time = some e) ∧
      (∀ b : ℚ, st.best_time = some b → ¬ e < b →
        (mergeStats st true e).best_time = st.best_time) ∧
      (∀ (s : Bool) (b b2 : ℚ), st.best_time = some b →
        (mergeStats st s e).best_time = some b2 → b2 ≤ b) := by
  intro st e
  refine ⟨by simp [mergeStats], ?_, ?_, ?_, ?_⟩
  · intro hb; simp [mergeStats, updateBest, hb]
  · intro b hb he; simp [mergeStats, updateBest, hb, he]
  · intro b hb he; simp [mergeStats, updateBest, hb, he]
  · intro s b b2 hb hm
    cases s with
    | false =>
        rw [show (mergeStats st false e).best_time = st.best_time from by simp [mergeStats],
            hb] at hm
        simp only [Option.some_inj] at hm
        simp [hm]
    | true =>
        rw [show (mergeStats st true e).best_time = updateBest st.best_time e from by
              simp [mergeStats],
            hb] at hm
        by_cases he : e < b
        · rw [show updateBest (some b) e = some e from by simp [updateBest, he]] at hm
          simp only [Option.some_inj] at hm
          rw [hm] at he
          exact le_of_lt he
        · rw [show updateBest (some b) e = some b from by simp [updateBest, he]] at hm
          simp only [Option.some_inj] at hm
          simp [hm]

/-- C4 witness: a first success at 30 seconds installs `best_time = 30`. -/
theorem C4_best_time_rule_witness :
    (mergeStats ⟨0, 0, 0, none⟩ true 30).best_time = some 30 :=
  (C4_best_time_rule ⟨0, 0, 0, none⟩ 30).2.1 rfl

/-- C8: `load_results` returns the persisted document when the file exists
and parses, returns the empty mapping when the file is absent, and
propagates the parse failure when the file exists but is corrupt. -/
theorem C8_load_rule :
    load_results none = .ok (.jobj []) ∧
    load_results (some none) = .error .decodeError ∧
    ∀ j : Json, load_results (some (some j)) = .ok j :=
  ⟨rfl, rfl, fun _ => rfl⟩

/-- C10: submitting an unparsable answer in the GUI leaves the session
state (problem list, current index, correct count) exactly as it was, so
the same question is shown again and nothing is recorded. -/
theorem C10_gui_unparsable_noop :
    ∀ st : GuiState, check_answer st none = .ok st :=
  fun _ => rfl

/-- A degenerate but legitimate random source: every `randint(0, 12)` draw
is 0 and the shuffle happens to leave the list in place. -/
def constRng : Rng := ⟨fun _ => 0, id⟩

lemma constRng_good : goodRng constRng :=
  ⟨fun _ => by norm_num [constRng], fun l => List.Perm.refl l⟩

/-- A random source whose `randint(0, 12)` draws all return 5. -/
def fiveRng : Rng := ⟨fun _ => 5, id⟩

lemma fiveRng_good : goodRng fiveRng :=
  ⟨fun _ => by norm_num [fiveRng], fun l => List.Perm.refl l⟩

/-- C2: for every table `t`, `generate_problems` yields exactly 20 pairs,
each with first component `t` and multiplier in `[0, 12]`, and every
multiplier 0..12 occurs at least once. -/
theorem C2_generate_problems :
    ∀ (r : Rng) (t : ℤ), goodRng r →
      (generate_problems r t).length = 20 ∧
      (∀ p ∈ generate_problems r t, p.1 = t ∧ 0 ≤ p.2 ∧ p.2 ≤ 12) ∧
      (∀ m : ℤ, 0 ≤ m → m ≤ 12 → ∃ p ∈ generate_problems r t, p.2 = m) := by
  intro r t hg
  have hperm := hg.2 (fixedProblems t ++ cliExtras r t)
  refine ⟨?_, ?_, ?_⟩
  · rw [generate_problems, hperm.length_eq, List.length_append,
        show (fixedProblems t).length = 13 from rfl,
        show (cliExtras r t).length = 7 from rfl]
  · intro p hp
    have hp2 : p ∈ fixedProblems t ++ cliExtras r t := hperm.mem_iff.mp hp
    rcases List.mem_append.mp hp2 with h | h
    · rcases List.mem_map.mp h with ⟨i, hi, hip⟩
      have hi13 : i < 13 := List.mem_range.mp hi
      rw [← hip]
      refine ⟨rfl, Int.natCast_nonneg i, ?_⟩
      show (i : ℤ) ≤ 12
      exact_mod_cast Nat.le_of_lt_succ hi13
    · rcases List.mem_map.mp h with ⟨n, _, hnp⟩
      rw [← hnp]
      refine ⟨rfl, Int.natCast_nonneg _, ?_⟩
      show (r.randint n : ℤ) ≤ 12
      exact_mod_cast hg.1 n
  · intro m hm0 hm12
    refine ⟨(t, m), hperm.mem_iff.mpr (List.mem_append.mpr (Or.inl ?_)), rfl⟩
    refine List.mem_map.mpr ⟨m.toNat, List.mem_range.mpr ?_, ?_⟩
    · exact Nat.lt_succ_of_le (Int.toNat_le.mpr (by exact_mod_cast hm12))
    · rw [Int.toNat_of_nonneg hm0]

/-- C2 witness: the rule instantiated at a concrete random source and
table 3. -/
theorem C2_generate_problems_witness :
    (generate_problems constRng 3).length = 20 :=
  (C2_generate_problems constRng 3 constRng_good).1

lemma fixedProblems_getD {t : ℤ} {i : ℕ} (h : i < 13) :
    (fixedProblems t).getD i (t, 0) = (t, (i : ℤ)) := by
  rw [fixedProblems, List.getD_eq_getElem?_getD, List.getElem?_map, List.getElem?_range h]
  rfl

lemma guiSample_snd {sel : List ℕ} {t : ℤ} (h : ∀ i ∈ sel, i < 13) :
    (guiSample sel t).map Prod.snd = sel.map (fun (i : ℕ) => (i : ℤ)) := by
  rw [guiSample, List.map_map]
  refine List.map_congr_left ?_
  intro i hi
  simp only [Function.comp_apply, fixedProblems_getD (h i hi)]

/-- C6 counterexample: in the GUI front end the 7 supplemental problems
come from `random.sample` over the 13 fixed problems, so no outcome of the
random source makes two supplemental multipliers coincide — refuting the
with-replacement reading for the GUI at table 2. -/
theorem C6_counterexample :
    ¬ ∃ sel : List ℕ, SampleOk sel ∧ ¬ ((guiSample sel 2).map Prod.snd).Nodup := by
  rintro ⟨sel, ⟨hnd, _, hbound⟩, hbad⟩
  refine hbad ?_
  rw [guiSample_snd hbound]
  exact hnd.map Nat.cast_injective

/-- C6 (amended): the CLI builds the 13 fixed problems (multipliers 0..12
in order), appends 7 extras drawn from `[0, 12]` with replacement — some
outcome makes two of them coincide — and permutes the 20; the GUI instead
samples its 7 extras from the 13 fixed problems without replacement, so
its supplemental multipliers are always pairwise distinct, and then
permutes the 20. -/
theorem C6_generation_structure :
    ∀ (r : Rng) (t : ℤ) (sel : List ℕ), goodRng r → SampleOk sel →
      ((fixedProblems t).map Prod.snd = (List.range 13).map (fun (i : ℕ) => (i : ℤ))) ∧
      (generate_problems r t).Perm (fixedProblems t ++ cliExtras r t) ∧
      (∀ p ∈ cliExtras r t, p.1 = t ∧ 0 ≤ p.2 ∧ p.2 ≤ 12) ∧
      (∃ r2 : Rng, goodRng r2 ∧ ¬ ((cliExtras r2 t).map Prod.snd).Nodup) ∧
      (gui_problems r sel t).Perm (fixedProblems t ++ guiSample sel t) ∧
      ((guiSample sel t).map Prod.snd).Nodup := by
  intro r t sel hg hsel
  refine ⟨by rw [fixedProblems, List.map_map]; rfl, hg.2 _, ?_, ⟨fiveRng, fiveRng_good, ?_⟩,
          hg.2 _, ?_⟩
  · intro p hp
    rcases List.mem_map.mp hp with ⟨n, _, hnp⟩
    rw [← hnp]
    refine ⟨rfl, Int.natCast_nonneg _, ?_⟩
    show (r.randint n : ℤ) ≤ 12
    exact_mod_cast hg.1 n
  · rw [show (cliExtras fiveRng t).map Prod.snd = [5, 5, 5, 5, 5, 5, 5] from rfl]
    decide
  · rw [guiSample_snd hsel.2.2]
    exact hsel.1.map Nat.cast_injective

/-- A concrete `random.sample` outcome: the first 7 positions. -/
def demoSel : List ℕ := [0, 1, 2, 3, 4, 5, 6]

/-- C6 witness: the amended statement instantiated at a concrete random
source, table 2, and a concrete sample outcome. -/
theorem C6_generation_structure_witness :
    ((guiSample demoSel 2).map Prod.snd).Nodup :=
  (C6_generation_structure constRng 2 demoSel constRng_good
    ⟨by decide, by decide, by decide⟩).2.2.2.2.2

lemma decodeStats_encodeStats (st : TableStats) :
    decodeStats (encodeStats st) = some st := by
  obtain ⟨a, s, f, b⟩ := st
  cases b <;>
    simp [encodeStats, decodeStats, jfield, decodeNat, decodeBest,
          Int.natCast_nonneg, Int.toNat_natCast]

lemma decodeEntries_encode (s : Store) :
    decodeEntries (s.map (fun p => (p.1, encodeStats p.2))) = some s := by
  induction s with
  | nil => rfl
  | cons hd tl ih =>
      simp [decodeEntries, decodeStats_encodeStats, ih]

/-- C9: saving a valid statistics store and loading it back yields the
same document, and reading its fields recovers the original store
field-for-field, with no loss of numeric precision at the value level. -/
theorem C9_save_load_roundtrip :
    ∀ store : Store,
      load_results (save_results store) = .ok (encodeStore store) ∧
      decodeStore (encodeStore store) = some store := by
  intro store
  refine ⟨rfl, ?_⟩
  rw [encodeStore, decodeStore]
  exact decodeEntries_encode store

lemma cli_session_answered :
    ∀ (ps : List (ℤ × ℤ)) (ans : List (Option ℤ)),
      ans.length = ps.length → (cli_session ps ans).1 = ps.length := by
  intro ps
  induction ps with
  | nil => intro ans _; rfl
  | cons hd tl ih =>
      intro ans h
      cases ans with
      | nil => simp at h
      | cons a rest =>
          obtain ⟨x, y⟩ := hd
          simp only [cli_session, List.length_cons]
          rw [ih rest (by simpa using h)]

/-- C5 counterexample: in the GUI front end an unparsable submission does
not advance the session and is not scored — here a session fed 20 inputs,
the first of them unparsable, never reaches `finish_practice` and produces
no report. -/
theorem C5_counterexample :
    check_answer ⟨demoProblems, 0, 0⟩ none = .ok ⟨demoProblems, 0, 0⟩ ∧
    gui_practice [] 2 demoProblems (none :: demoAnswers.drop 1) 0 30 = none := by
  exact ⟨rfl, by decide⟩

/-- C5 (amended): in the command-line front end an unparsable answer is
counted exactly like an incorrect answer for its problem, the loop
continues to the next problem with no error escaping the `try` block, and
every problem is covered when one input arrives per problem; in the
graphical front end an unparsable submission instead leaves the session
state unchanged and the same question is asked again. -/
theorem C5_parse_failure_handling :
    ∀ (a b : ℤ) (ps : List (ℤ × ℤ)) (ans : List (Option ℤ)) (st : GuiState),
      (ans.length = ps.length → (cli_session ps ans).1 = ps.length) ∧
      (cli_session ((a, b) :: ps) (none :: ans) =
        ((cli_session ps ans).1 + 1, (cli_session ps ans).2)) ∧
      (cli_session ((a, b) :: ps) (none :: ans) =
        cli_session ((a, b) :: ps) (some (a * b + 1) :: ans)) ∧
      (check_answer st none = .ok st) := by
  intro a b ps ans st
  refine ⟨cli_session_answered ps ans, by simp [cli_session, score_answer], ?_, rfl⟩
  simp only [cli_session, score_answer]
  rw [if_neg (by omega : ¬ a * b + 1 = a * b)]

/-- C5 witness: the amended statement instantiated on a concrete complete
session. -/
theorem C5_parse_failure_handling_witness :
    (cli_session demoProblems demoAnswers).1 = demoProblems.length :=
  (C5_parse_failure_handling 0 0 demoProblems demoAnswers ⟨[], 0, 0⟩).1 (by decide)

/-- Correct-answer credit collected from position `k` onward of a problem
list against a list of submit events; the bridge between the two front
ends' scoring loops. -/
def countFrom (ps : List (ℤ × ℤ)) : ℕ → List (Option ℤ) → ℕ
  | _, [] => 0
  | k, e :: es =>
      (match ps[k]? with
       | some (a, b) => score_answer a b e
       | none => 0) + countFrom ps (k + 1) es

lemma round2_eq {q : ℚ} {n : ℤ} (h1 : (n : ℚ) ≤ q * 100) (h2 : q * 100 < n + 1/2) :
    round2 q = (n : ℚ) / 100 := by
  have hfl : ⌊q * 100⌋ = n := Int.floor_eq_iff.mpr ⟨h1, by linarith⟩
  simp only [round2, hfl]
  rw [if_pos (by linarith : q * 100 - (n : ℚ) < 1/2)]

lemma gui_run_all_parsed :
    ∀ (es : List (Option ℤ)) (st : GuiState),
      (∀ e ∈ es, e.isSome) →
      st.current_index + es.length ≤ st.problems.length →
      gui_run st es =
        .ok ⟨st.problems, st.current_index + es.length,
             st.correct_answers + countFrom st.problems st.current_index es⟩ := by
  intro es
  induction es with
  | nil =>
      intro st _ _
      obtain ⟨ps, i, c⟩ := st
      simp [gui_run, countFrom]
  | cons e es ih =>
      intro st hsome hlen
      obtain ⟨v, hv⟩ := Option.isSome_iff_exists.mp (hsome e (List.mem_cons_self e es))
      have hidx : st.current_index < st.problems.length := by
        simp only [List.length_cons] at hlen
        omega
      obtain ⟨⟨a, b⟩, hab⟩ : ∃ p, st.problems[st.current_index]? = some p :=
        ⟨st.problems[st.current_index], List.getElem?_eq_getElem hidx⟩
      simp only [gui_run, if_pos hidx, hv, check_answer, hab]
      have step := ih
        { st with
            correct_answers :=
              if v = a * b then st.correct_answers + 1 else st.correct_answers,
            current_index := st.current_index + 1 }
        (fun x hx => hsome x (List.mem_cons_of_mem _ hx))
        (by
          show st.current_index + 1 + es.length ≤ st.problems.length
          have h2 := hlen
          simp only [List.length_cons] at h2
          omega)
      rw [step]
      have hcnt : countFrom st.problems st.current_index (some v :: es) =
          (if v = a * b then 1 else 0) + countFrom st.problems (st.current_index + 1) es := by
        rw [countFrom, hab]
        rfl
      refine congrArg Except.ok ?_
      simp only [List.length_cons, hcnt]
      by_cases hva : v = a * b <;> simp [hva] <;> omega

lemma countFrom_drop :
    ∀ (es : List (Option ℤ)) (ps : List (ℤ × ℤ)) (k : ℕ),
      countFrom ps k es = (cli_session (ps.drop k) es).2 := by
  intro es
  induction es with
  | nil =>
      intro ps k
      rcases hd : ps.drop k with _ | ⟨⟨a, b⟩, tl⟩ <;> simp [countFrom, cli_session]
  | cons e es ih =>
      intro ps k
      rcases hd : ps.drop k with _ | ⟨⟨a, b⟩, tl⟩
      · have hk : ps.length ≤ k := by
          have hlen := congrArg List.length hd
          simp only [List.length_drop, List.length_nil] at hlen
          omega
        have h1 : ps[k]? = none := List.getElem?_eq_none hk
        have h2 : ps.drop (k + 1) = [] := by
          apply List.eq_nil_of_length_eq_zero
          simp only [List.length_drop]
          omega
        rw [countFrom, h1, ih, h2]
        simp [cli_session]
      · have hget : ps[k]? = some (a, b) := by
          have h0 : (ps.drop k)[0]? = some (a, b) := by
            rw [hd, List.getElem?_cons_zero]
          rwa [List.getElem?_drop, Nat.add_zero] at h0
        have htl : ps.drop (k + 1) = tl := by
          have h0 : (ps.drop k).drop 1 = tl := by rw [hd, List.drop_one, List.tail_cons]
          rw [List.drop_drop] at h0
          exact h0
        rw [countFrom, hget, ih, htl]
        simp only [cli_session]
        omega

/-- C7 counterexample: with identical problems, answers, and timestamps
(elapsed 60.004 seconds, every answer correct), the CLI rounds the elapsed
time to 60.00 and judges the session a success while the GUI compares the
raw elapsed time and judges it a failure — so the two front ends do not
compute the same verdict. -/
theorem C7_counterexample :
    (cli_practice [] 2 demoProblems demoAnswers 0 (15001/250)).1 = true ∧
    (gui_practice [] 2 demoProblems demoAnswers 0 (15001/250)).map Prod.fst =
      some false := by
  constructor
  · show session_success (cli_session demoProblems demoAnswers).2
        (round2 (15001/250 - 0)) = true
    have hc : (cli_session demoProblems demoAnswers).2 = 20 := by decide
    have hr : round2 ((15001 : ℚ)/250 - 0) = ((6000 : ℤ) : ℚ) / 100 :=
      round2_eq (by norm_num) (by norm_num)
    rw [hc, hr]
    norm_num [session_success]
  · have hshape : (gui_practice [] 2 demoProblems demoAnswers 0 (15001/250)).map Prod.fst =
        some (session_success 20 ((15001 : ℚ)/250 - 0)) := rfl
    rw [hshape]
    have hv : session_success 20 ((15001 : ℚ)/250 - 0) = false := by
      norm_num [session_success]
    rw [hv]

/-- C7 (amended): the two front ends share the success rule and the
statistics merge, and they compute the same verdict and the same persisted
update for any session in which every answer input parses as an integer
and the elapsed time is unchanged by rounding to 2 decimal places; they
can differ when rounding crosses the 60-second threshold or when an input
fails to parse. -/
theorem C7_frontend_agreement :
    ∀ (store : Store) (t : ℤ) (ps : List (ℤ × ℤ)) (ans : List (Option ℤ)) (t0 t1 : ℚ),
      ps.length = 20 → ans.length = 20 → (∀ e ∈ ans, e.isSome) →
      round2 (t1 - t0) = t1 - t0 →
      gui_practice store t ps ans t0 t1 = some (cli_practice store t ps ans t0 t1) := by
  intro store t ps ans t0 t1 hps hans hsome hr
  have hrun := gui_run_all_parsed ans ⟨ps, 0, 0⟩ hsome (by simp [hps, hans])
  simp only [gui_practice, hrun]
  rw [if_pos (by simp [hps, hans] : (⟨ps, 0 + ans.length,
        0 + countFrom ps 0 ans⟩ : GuiState).current_index ≥ ps.length)]
  show some (session_success (0 + countFrom ps 0 ans) (t1 - t0),
        merge store (toString t) (session_success (0 + countFrom ps 0 ans) (t1 - t0))
          (t1 - t0)) =
      some (session_success (cli_session ps ans).2 (round2 (t1 - t0)),
        merge store (toString t) (session_success (cli_session ps ans).2 (round2 (t1 - t0)))
          (round2 (t1 - t0)))
  rw [hr, Nat.zero_add, countFrom_drop ans ps 0, List.drop_zero]

/-- C7 witness: the agreement instantiated on a concrete all-correct
30-second session. -/
theorem C7_frontend_agreement_witness :
    gui_practice [] 2 demoProblems demoAnswers 0 30 =
      some (cli_practice [] 2 demoProblems demoAnswers 0 30) :=
  C7_frontend_agreement [] 2 demoProblems demoAnswers 0 30 (by decide) (by decide)
    (by decide)
    (by
      have h30 : (30 : ℚ) - 0 = 30 := by norm_num
      have hr : round2 ((30 : ℚ)) = ((3000 : ℤ) : ℚ) / 100 :=
        round2_eq (by norm_num) (by norm_num)
      rw [h30, hr]
      norm_num)

end TimesTables
